import Mathlib

/-!
Shallow embedding of the in-memory poll store of `src/index.js`
(tpc_voting_backend): an Express HTTP backend holding all polls in a
process-wide object `polls`, with handlers for create, get, vote,
results, close, list and delete.

Modelling conventions:
- The JS object `polls` (string key to poll record) is an association
  list `Store` with unique keys along every reachable execution; JS
  property lookup, assignment and `delete` become `Store.find`,
  `Store.set` and `Store.erase`.
- The JS `Set` used for `voters` is a list of identity strings; the
  handler only ever adds an identity after a failed membership check
  (line 195 then 204 of the source), so the list stays duplicate free
  and its length is the cardinality of the set.
- A JSON body field that may be a number or something else (absent, a
  string, ...) is an `Option` value: `optionIndex : Option Rat` where
  `none` models every non-number JSON value (the `typeof optionIndex
  !== 'number'` test at line 186), and `some q` a finite JSON number,
  embedded as a rational. `voterId : Option String` models an absent
  or string-valued `voterId`.
- The JS increment `poll.votes[optionIndex]++` at line 203 touches an
  array slot only when the index is a nonnegative integer below the
  array length; for a fractional number it creates a non-index
  property invisible to the array entries and to
  `votes.reduce((a,b)=>a+b,0)`, so the embedded vote list is updated
  only when the rational index is integral. Likewise
  `poll.options[optionIndex]` at line 210 is `undefined` (here `none`)
  for a fractional index.
- `toFixed(1)` at line 244 (round to one decimal, half away from zero;
  the computed ratios are nonnegative, so half up) is `roundTenth` on
  rationals.
- `createdAt` (`new Date().toISOString()`) is an abstract `Nat`
  timestamp supplied to the create operation.
-/

/-- The lifecycle status of a poll: the string field `status` of the
source, which is `'active'` or `'closed'` (line 93). -/
inductive Status where
  | active
  | closed
deriving DecidableEq, Repr

/-- A poll record, as stored in `polls[pollId]` (lines 88-96 of
`src/index.js`). -/
structure Poll where
  id : String
  question : String
  options : List String
  votes : List Nat
  status : Status
  createdAt : Nat
  voters : List String
deriving DecidableEq, Repr

/-- The in-memory store `polls` (line 34): an association list from
poll id to poll record. -/
abbrev Store := List (String × Poll)

/-- Property lookup `polls[pollId]` (lines 43 and 46, `getPollOrError`):
the value at the first matching key, if any. -/
def Store.find : Store → String → Option Poll
  | [], _ => none
  | (k, p) :: rest, pollId => if k = pollId then some p else Store.find rest pollId

/-- Property assignment `polls[pollId] = poll` (line 88) and in-place
record mutation: replace the binding at the key, or add one if absent. -/
def Store.set : Store → String → Poll → Store
  | [], pollId, p => [(pollId, p)]
  | (k, q) :: rest, pollId, p =>
      if k = pollId then (pollId, p) :: rest else (k, q) :: Store.set rest pollId p

/-- Property deletion `delete polls[pollId]` (line 356). -/
def Store.erase : Store → String → Store
  | [], _ => []
  | (k, q) :: rest, pollId =>
      if k = pollId then Store.erase rest pollId else (k, q) :: Store.erase rest pollId

/-- The JS `String.prototype.trim` used at lines 64, 78 and 90:
removes leading and trailing whitespace characters, embedded over the
character list (whitespace per `Char.isWhitespace`, which covers the
ASCII whitespace JS trims in every input of interest). -/
def jsTrim (s : String) : String :=
  String.mk (((s.data.dropWhile Char.isWhitespace).reverse.dropWhile
    Char.isWhitespace).reverse)

/-- Truthiness of a trimmed JS string: `opt.trim()` is truthy exactly
when the trimmed string is nonempty (lines 64 and 78). -/
def trimmedTruthy (s : String) : Bool := !(jsTrim s).isEmpty

/-- The cleaned option list of the create handler (line 78):
`options.filter(opt => opt.trim())`. Note the filter keeps the
original, untrimmed entries; only the truthiness test uses `trim`. -/
def cleanedOptions (options : List String) : List String :=
  options.filter trimmedTruthy

/-- Outcome of the create handler `POST /api/polls/create`
(lines 59-116): one constructor per response branch. -/
inductive CreateOutcome where
  | questionRequired
  | atLeastTwoOptions
  | atLeastTwoNonEmpty
  | createdOk (pollId : String)
deriving DecidableEq, Repr

/-- Whether a create outcome is the 201 success branch. -/
def CreateOutcome.isOk : CreateOutcome → Bool
  | createdOk _ => true
  | _ => false

/-- The create handler (lines 59-116): validates the question and the
options, then stores a fresh poll record. `newId` stands for the value
of `generatePollId()` (line 87) and `now` for the creation time. -/
def createPoll (s : Store) (newId : String) (now : Nat) (question : String)
    (options : List String) : CreateOutcome × Store :=
  if (jsTrim question).isEmpty then (CreateOutcome.questionRequired, s)
  else if options.length < 2 then (CreateOutcome.atLeastTwoOptions, s)
  else
    let cleaned := cleanedOptions options
    if cleaned.length < 2 then (CreateOutcome.atLeastTwoNonEmpty, s)
    else
      (CreateOutcome.createdOk newId,
       Store.set s newId
         { id := newId
           question := jsTrim question
           options := cleaned
           votes := cleaned.map (fun _ => 0)
           status := Status.active
           createdAt := now
           voters := [] })

/-- Resolution of the deduplication identity at line 194:
`const uniqueVoterId = voterId || req.ip`. A missing `voterId` and the
empty string are both falsy in JS, so both fall back to the
connection address `ip`. -/
def uniqueVoterId (voterId : Option String) (ip : String) : String :=
  match voterId with
  | some v => if v = "" then ip else v
  | none => ip

/-- Outcome of the vote handler `POST /api/polls/:pollId/vote`
(lines 161-219): one constructor per response branch. The success
branch carries the poll id and `poll.options[optionIndex]`, which is
`none` when the index addresses no option (line 210). -/
inductive VoteOutcome where
  | notFound
  | closedPoll
  | invalidOption
  | duplicateVote
  | voteOk (pollId : String) (optionText : Option String)
deriving DecidableEq, Repr

/-- The vote handler (lines 161-219). Checks, in source order: poll
existence (line 167), closed status (line 178), the option-index test
`typeof optionIndex !== 'number' || optionIndex < 0 || optionIndex >=
poll.options.length` (line 186), and duplicate voters (line 195);
then records the vote (lines 203-204). A fractional in-range number
passes the index test; its increment touches no array entry and its
option text is `undefined`. -/
def votePoll (s : Store) (pollId : String) (optionIndex : Option ℚ)
    (voterId : Option String) (ip : String) : VoteOutcome × Store :=
  match Store.find s pollId with
  | none => (VoteOutcome.notFound, s)
  | some poll =>
    if poll.status = Status.closed then (VoteOutcome.closedPoll, s)
    else
      match optionIndex with
      | none => (VoteOutcome.invalidOption, s)
      | some q =>
        if q < 0 ∨ (poll.options.length : ℚ) ≤ q then (VoteOutcome.invalidOption, s)
        else
          let v := uniqueVoterId voterId ip
          if v ∈ poll.voters then (VoteOutcome.duplicateVote, s)
          else
            let newVotes :=
              if q.den = 1 then
                poll.votes.set q.num.toNat (poll.votes.getD q.num.toNat 0 + 1)
              else poll.votes
            let optText :=
              if q.den = 1 then poll.options.get? q.num.toNat else none
            (VoteOutcome.voteOk pollId optText,
             Store.set s pollId { poll with votes := newVotes, voters := v :: poll.voters })

/-- Outcome of the close handler `PUT /api/polls/:pollId/close`
(lines 270-308). -/
inductive CloseOutcome where
  | notFound
  | alreadyClosed
  | closedOk
deriving DecidableEq, Repr

/-- The close handler (lines 270-308): flips an active poll to
`closed`, rejects a second close. -/
def closePoll (s : Store) (pollId : String) : CloseOutcome × Store :=
  match Store.find s pollId with
  | none => (CloseOutcome.notFound, s)
  | some poll =>
    if poll.status = Status.closed then (CloseOutcome.alreadyClosed, s)
    else (CloseOutcome.closedOk, Store.set s pollId { poll with status := Status.closed })

/-- Outcome of the delete handler `DELETE /api/polls/:pollId`
(lines 344-370). -/
inductive DeleteOutcome where
  | notFound
  | deletedOk
deriving DecidableEq, Repr

/-- The delete handler (lines 344-370): removes the record entirely. -/
def deletePoll (s : Store) (pollId : String) : DeleteOutcome × Store :=
  match Store.find s pollId with
  | none => (DeleteOutcome.notFound, s)
  | some _ => (DeleteOutcome.deletedOk, Store.erase s pollId)

/-- The projection returned by `GET /api/polls/:pollId`
(lines 136-145): id, question, options, status, createdAt. -/
structure PollView where
  id : String
  question : String
  options : List String
  status : Status
  createdAt : Nat
deriving DecidableEq, Repr

/-- The get handler (lines 123-153): `none` is the 404 branch. -/
def getPoll (s : Store) (pollId : String) : Option PollView :=
  match Store.find s pollId with
  | none => none
  | some poll =>
      some { id := poll.id, question := poll.question, options := poll.options,
             status := poll.status, createdAt := poll.createdAt }

/-- Rounding to one decimal, half up: the behaviour of `toFixed(1)` at
line 244 on the nonnegative ratios computed there. -/
def roundTenth (x : ℚ) : ℚ := (⌊x * 10 + 1 / 2⌋ : ℚ) / 10

/-- The per-option percentage of line 244:
`totalVotes > 0 ? ((votes[i] / totalVotes) * 100).toFixed(1) : 0`. -/
def percentageOf (v t : Nat) : ℚ :=
  if 0 < t then roundTenth ((v : ℚ) / (t : ℚ) * 100) else 0

/-- One entry of the results list built at lines 241-245. -/
structure ResultEntry where
  option : String
  votes : Nat
  percentage : ℚ
deriving DecidableEq, Repr

/-- The payload of the results handler (lines 247-255). -/
structure ResultsView where
  pollId : String
  question : String
  status : Status
  totalVotes : Nat
  entries : List ResultEntry
  createdAt : Nat
deriving DecidableEq, Repr

/-- The results handler `GET /api/polls/:pollId/results`
(lines 226-263): `totalVotes` is `poll.votes.reduce((a,b)=>a+b,0)`
(line 239) and the entry list maps over the options with their index
(lines 241-245). `none` is the 404 branch. -/
def getResults (s : Store) (pollId : String) : Option ResultsView :=
  match Store.find s pollId with
  | none => none
  | some poll =>
      let total := poll.votes.sum
      some { pollId := pollId
             question := poll.question
             status := poll.status
             totalVotes := total
             entries := (List.range poll.options.length).map (fun i =>
               { option := poll.options.getD i ""
                 votes := poll.votes.getD i 0
                 percentage := percentageOf (poll.votes.getD i 0) total })
             createdAt := poll.createdAt }

/-- One mutating API operation against the store, with the inputs the
handlers draw from the request. -/
inductive Op where
  | create (newId : String) (now : Nat) (question : String) (options : List String)
  | vote (pollId : String) (optionIndex : Option ℚ) (voterId : Option String) (ip : String)
  | close (pollId : String)
  | delete (pollId : String)

/-- The store after one operation (the read-only handlers never change
the store). -/
def applyOp (s : Store) : Op → Store
  | Op.create newId now question options => (createPoll s newId now question options).2
  | Op.vote pollId optionIndex voterId ip => (votePoll s pollId optionIndex voterId ip).2
  | Op.close pollId => (closePoll s pollId).2
  | Op.delete pollId => (deletePoll s pollId).2

/-- Freshness of the generated poll id for a create step: models the
collision resistance of `generatePollId()` (line 38, a timestamp plus
random suffix), which never reuses an id currently in the store. All
other operations carry no generated id. -/
def freshOk (s : Store) : Op → Prop
  | Op.create newId _ _ _ => Store.find s newId = none
  | _ => True

/-- The stores reachable from the empty store by the API operations,
with every create step using a fresh generated id. -/
inductive Reachable : Store → Prop
  | init : Reachable []
  | step (s : Store) (op : Op) (h : Reachable s) (hfresh : freshOk s op) :
      Reachable (applyOp s op)

/-! Lemmas about the store primitives. -/

/-- Looking up a key right after setting it yields the new record. -/
theorem Store.find_set_self (s : Store) (pollId : String) (p : Poll) :
    Store.find (Store.set s pollId p) pollId = some p := by
  induction s with
  | nil => simp [Store.set, Store.find]
  | cons kv rest ih =>
    obtain ⟨k, q⟩ := kv
    by_cases h : k = pollId
    · simp [Store.set, Store.find, h]
    · simp [Store.set, Store.find, h, ih]

/-- Setting one key leaves every other key unchanged. -/
theorem Store.find_set_ne (s : Store) (pollId : String) (p : Poll) (j : String)
    (hj : j ≠ pollId) : Store.find (Store.set s pollId p) j = Store.find s j := by
  have hj2 : pollId ≠ j := Ne.symm hj
  induction s with
  | nil => simp [Store.set, Store.find, hj2]
  | cons kv rest ih =>
    obtain ⟨k, q⟩ := kv
    by_cases h : k = pollId
    · subst h
      simp [Store.set, Store.find, hj2]
    · simp [Store.set, Store.find, h, ih]

/-- Looking up a key right after erasing it yields nothing. -/
theorem Store.find_erase_self (s : Store) (pollId : String) :
    Store.find (Store.erase s pollId) pollId = none := by
  induction s with
  | nil => simp [Store.erase, Store.find]
  | cons kv rest ih =>
    obtain ⟨k, q⟩ := kv
    by_cases h : k = pollId
    · simp [Store.erase, h, ih]
    · simp [Store.erase, Store.find, h, ih]

/-- Erasing one key leaves every other key unchanged. -/
theorem Store.find_erase_ne (s : Store) (pollId : String) (j : String)
    (hj : j ≠ pollId) : Store.find (Store.erase s pollId) j = Store.find s j := by
  have hj2 : pollId ≠ j := Ne.symm hj
  induction s with
  | nil => simp [Store.erase]
  | cons kv rest ih =>
    obtain ⟨k, q⟩ := kv
    by_cases h : k = pollId
    · subst h
      simp [Store.erase, Store.find, hj2, ih]
    · simp [Store.erase, Store.find, h, ih]

/-! Characterizations of the handler branches. -/

/-- Vote on an unknown poll id: the 404 branch of line 168. -/
theorem votePoll_not_found (s : Store) (pollId : String) (oi : Option ℚ)
    (vid : Option String) (ip : String) (h : Store.find s pollId = none) :
    votePoll s pollId oi vid ip = (VoteOutcome.notFound, s) := by
  simp [votePoll, h]

/-- Vote on a closed poll: the 400 branch of line 178, reached for
every option index and every voter identity, leaving the store as is. -/
theorem votePoll_closed (s : Store) (pollId : String) (poll : Poll) (oi : Option ℚ)
    (vid : Option String) (ip : String) (h : Store.find s pollId = some poll)
    (hc : poll.status = Status.closed) :
    votePoll s pollId oi vid ip = (VoteOutcome.closedPoll, s) := by
  simp [votePoll, h, hc]

/-- Vote with a non-number option index: the 400 branch of line 186. -/
theorem votePoll_invalid_nonnumber (s : Store) (pollId : String) (poll : Poll)
    (vid : Option String) (ip : String) (h : Store.find s pollId = some poll)
    (hc : poll.status ≠ Status.closed) :
    votePoll s pollId none vid ip = (VoteOutcome.invalidOption, s) := by
  simp [votePoll, h, hc]

/-- Vote with a number option index outside the valid range: the 400
branch of line 186. -/
theorem votePoll_invalid_range (s : Store) (pollId : String) (poll : Poll) (q : ℚ)
    (vid : Option String) (ip : String) (h : Store.find s pollId = some poll)
    (hc : poll.status ≠ Status.closed)
    (hq : q < 0 ∨ (poll.options.length : ℚ) ≤ q) :
    votePoll s pollId (some q) vid ip = (VoteOutcome.invalidOption, s) := by
  simp only [votePoll, h]
  rw [if_neg hc, if_pos hq]

/-- Vote by an already recorded identity: the 400 branch of line 195. -/
theorem votePoll_duplicate (s : Store) (pollId : String) (poll : Poll) (q : ℚ)
    (vid : Option String) (ip : String) (h : Store.find s pollId = some poll)
    (hc : poll.status ≠ Status.closed)
    (hq : ¬(q < 0 ∨ (poll.options.length : ℚ) ≤ q))
    (hd : uniqueVoterId vid ip ∈ poll.voters) :
    votePoll s pollId (some q) vid ip = (VoteOutcome.duplicateVote, s) := by
  simp only [votePoll, h]
  rw [if_neg hc, if_neg hq, if_pos hd]

/-- The accepted-vote branch (lines 203-211): the store is updated at
the poll id with the incremented vote list and the extended voter set,
and the response carries the poll id and the addressed option text. -/
theorem votePoll_success (s : Store) (pollId : String) (poll : Poll) (q : ℚ)
    (vid : Option String) (ip : String) (h : Store.find s pollId = some poll)
    (hc : poll.status ≠ Status.closed)
    (hq : ¬(q < 0 ∨ (poll.options.length : ℚ) ≤ q))
    (hd : uniqueVoterId vid ip ∉ poll.voters) :
    votePoll s pollId (some q) vid ip =
      (VoteOutcome.voteOk pollId
         (if q.den = 1 then poll.options.get? q.num.toNat else none),
       Store.set s pollId
         { poll with
           votes :=
             if q.den = 1 then
               poll.votes.set q.num.toNat (poll.votes.getD q.num.toNat 0 + 1)
             else poll.votes
           voters := uniqueVoterId vid ip :: poll.voters }) := by
  simp only [votePoll, h]
  rw [if_neg hc, if_neg hq, if_neg hd]

/-- The store part of a vote is either untouched or an update of the
addressed poll id. -/
theorem votePoll_snd_cases (s : Store) (pollId : String) (oi : Option ℚ)
    (vid : Option String) (ip : String) :
    (votePoll s pollId oi vid ip).2 = s ∨
      ∃ p, (votePoll s pollId oi vid ip).2 = Store.set s pollId p := by
  cases h : Store.find s pollId with
  | none => rw [votePoll_not_found s pollId oi vid ip h]; left; rfl
  | some poll =>
    by_cases hc : poll.status = Status.closed
    · rw [votePoll_closed s pollId poll oi vid ip h hc]; left; rfl
    · cases oi with
      | none => rw [votePoll_invalid_nonnumber s pollId poll vid ip h hc]; left; rfl
      | some q =>
        by_cases hq : q < 0 ∨ (poll.options.length : ℚ) ≤ q
        · rw [votePoll_invalid_range s pollId poll q vid ip h hc hq]; left; rfl
        · by_cases hd : uniqueVoterId vid ip ∈ poll.voters
          · rw [votePoll_duplicate s pollId poll q vid ip h hc hq hd]; left; rfl
          · rw [votePoll_success s pollId poll q vid ip h hc hq hd]
            right
            exact ⟨_, rfl⟩

/-- Close on an unknown poll id: the 404 branch of line 276. -/
theorem closePoll_not_found (s : Store) (pollId : String)
    (h : Store.find s pollId = none) :
    closePoll s pollId = (CloseOutcome.notFound, s) := by
  simp [closePoll, h]

/-- Close on an already closed poll: the 400 branch of line 285. -/
theorem closePoll_already (s : Store) (pollId : String) (poll : Poll)
    (h : Store.find s pollId = some poll) (hc : poll.status = Status.closed) :
    closePoll s pollId = (CloseOutcome.alreadyClosed, s) := by
  simp [closePoll, h, hc]

/-- Close on an active poll (line 293): flips the status to closed. -/
theorem closePoll_active (s : Store) (pollId : String) (poll : Poll)
    (h : Store.find s pollId = some poll) (hc : poll.status ≠ Status.closed) :
    closePoll s pollId =
      (CloseOutcome.closedOk, Store.set s pollId { poll with status := Status.closed }) := by
  simp only [closePoll, h]
  rw [if_neg hc]

/-- The store part of a close is either untouched or an update of the
addressed poll id. -/
theorem closePoll_snd_cases (s : Store) (pollId : String) :
    (closePoll s pollId).2 = s ∨ ∃ p, (closePoll s pollId).2 = Store.set s pollId p := by
  cases h : Store.find s pollId with
  | none => rw [closePoll_not_found s pollId h]; left; rfl
  | some poll =>
    by_cases hc : poll.status = Status.closed
    · rw [closePoll_already s pollId poll h hc]; left; rfl
    · rw [closePoll_active s pollId poll h hc]
      right
      exact ⟨_, rfl⟩

/-- The poll record stored by a successful create (lines 88-96). -/
def freshPoll (newId : String) (now : Nat) (question : String)
    (options : List String) : Poll :=
  { id := newId
    question := jsTrim question
    options := cleanedOptions options
    votes := (cleanedOptions options).map (fun _ => 0)
    status := Status.active
    createdAt := now
    voters := [] }

/-- The successful create branch: both validations pass and the fresh
record is stored under the generated id. The length check of line 71
follows from the cleaned length check of line 79 because filtering
never lengthens a list. -/
theorem createPoll_success (s : Store) (newId : String) (now : Nat)
    (question : String) (options : List String)
    (hq : (jsTrim question).isEmpty = false)
    (hlen : 2 ≤ (cleanedOptions options).length) :
    createPoll s newId now question options =
      (CreateOutcome.createdOk newId,
       Store.set s newId (freshPoll newId now question options)) := by
  have hfle : (cleanedOptions options).length ≤ options.length :=
    List.length_filter_le trimmedTruthy options
  have h2 : ¬(options.length < 2) := by omega
  have h3 : ¬((cleanedOptions options).length < 2) := by omega
  simp only [createPoll, freshPoll, hq, Bool.false_eq_true, if_false, if_neg h2, if_neg h3]

/-- A create whose outcome is not the success branch leaves the store
untouched. -/
theorem createPoll_fail_frame (s : Store) (newId : String) (now : Nat)
    (question : String) (options : List String)
    (h : (createPoll s newId now question options).1.isOk = false) :
    (createPoll s newId now question options).2 = s := by
  by_cases h1 : (jsTrim question).isEmpty
  · simp only [createPoll, if_pos h1]
  · by_cases h2 : options.length < 2
    · simp only [createPoll, if_neg h1, if_pos h2]
    · by_cases h3 : (cleanedOptions options).length < 2
      · simp only [createPoll, if_neg h1, if_neg h2, if_pos h3]
      · exfalso
        have hs := createPoll_success s newId now question options
          (Bool.eq_false_iff.mpr h1) (by omega)
        rw [hs] at h
        simp [CreateOutcome.isOk] at h

/-- The create outcome is the success branch exactly when the trimmed
question is nonempty and at least two cleaned options remain. -/
theorem createPoll_isOk_iff (s : Store) (newId : String) (now : Nat)
    (question : String) (options : List String) :
    (createPoll s newId now question options).1.isOk = true ↔
      ((jsTrim question).isEmpty = false ∧ 2 ≤ (cleanedOptions options).length) := by
  constructor
  · intro h
    by_cases h1 : (jsTrim question).isEmpty
    · simp only [createPoll, if_pos h1, CreateOutcome.isOk] at h
      exact (Bool.false_ne_true h).elim
    · by_cases h2 : options.length < 2
      · simp only [createPoll, if_neg h1, if_pos h2, CreateOutcome.isOk] at h
        exact (Bool.false_ne_true h).elim
      · by_cases h3 : (cleanedOptions options).length < 2
        · simp only [createPoll, if_neg h1, if_neg h2, if_pos h3, CreateOutcome.isOk] at h
          exact (Bool.false_ne_true h).elim
        · exact ⟨Bool.eq_false_iff.mpr h1, by omega⟩
  · rintro ⟨hq, hlen⟩
    rw [createPoll_success s newId now question options hq hlen]
    rfl

/-- The store part of a create is either untouched or an update of the
generated id. -/
theorem createPoll_snd_cases (s : Store) (newId : String) (now : Nat)
    (question : String) (options : List String) :
    (createPoll s newId now question options).2 = s ∨
      ∃ p, (createPoll s newId now question options).2 = Store.set s newId p := by
  by_cases h : (createPoll s newId now question options).1.isOk = true
  · rcases (createPoll_isOk_iff s newId now question options).mp h with ⟨hq, hlen⟩
    rw [createPoll_success s newId now question options hq hlen]
    right
    exact ⟨_, rfl⟩
  · left
    exact createPoll_fail_frame s newId now question options (Bool.eq_false_iff.mpr h)

/-- Delete on an unknown poll id: the 404 branch of line 350. -/
theorem deletePoll_not_found (s : Store) (pollId : String)
    (h : Store.find s pollId = none) :
    deletePoll s pollId = (DeleteOutcome.notFound, s) := by
  simp [deletePoll, h]

/-- Delete on an existing poll (line 356): the record is erased. -/
theorem deletePoll_found (s : Store) (pollId : String) (poll : Poll)
    (h : Store.find s pollId = some poll) :
    deletePoll s pollId = (DeleteOutcome.deletedOk, Store.erase s pollId) := by
  simp [deletePoll, h]

/-- The store part of a delete is either untouched or the erasure of
the addressed poll id. -/
theorem deletePoll_snd_cases (s : Store) (pollId : String) :
    (deletePoll s pollId).2 = s ∨ (deletePoll s pollId).2 = Store.erase s pollId := by
  cases h : Store.find s pollId with
  | none => rw [deletePoll_not_found s pollId h]; left; rfl
  | some poll => rw [deletePoll_found s pollId poll h]; right; rfl

/-- A closed poll record is rigid under every single operation: if the
id still resolves after the step, it resolves to the unchanged record.
Create steps carry the freshness of `generatePollId()`. -/
theorem find_applyOp_of_closed (s : Store) (op : Op) (pollId : String) (poll : Poll)
    (hfresh : freshOk s op) (hfind : Store.find s pollId = some poll)
    (hclosed : poll.status = Status.closed) (p2 : Poll)
    (hfind2 : Store.find (applyOp s op) pollId = some p2) : p2 = poll := by
  cases op with
  | create newId now question options =>
    simp only [freshOk] at hfresh
    have hne : pollId ≠ newId := by
      intro e
      rw [e, hfresh] at hfind
      exact Option.noConfusion hfind
    rcases createPoll_snd_cases s newId now question options with h | ⟨p, h⟩
    · simp only [applyOp, h] at hfind2
      rw [hfind] at hfind2
      exact (Option.some.inj hfind2).symm
    · simp only [applyOp, h] at hfind2
      rw [Store.find_set_ne s newId p pollId hne, hfind] at hfind2
      exact (Option.some.inj hfind2).symm
  | vote pid oi vid ip =>
    by_cases hp : pid = pollId
    · subst hp
      have h2 : (votePoll s pid oi vid ip).2 = s := by
        rw [votePoll_closed s pid poll oi vid ip hfind hclosed]
      simp only [applyOp, h2] at hfind2
      rw [hfind] at hfind2
      exact (Option.some.inj hfind2).symm
    · rcases votePoll_snd_cases s pid oi vid ip with h | ⟨p, h⟩
      · simp only [applyOp, h] at hfind2
        rw [hfind] at hfind2
        exact (Option.some.inj hfind2).symm
      · simp only [applyOp, h] at hfind2
        rw [Store.find_set_ne s pid p pollId (Ne.symm hp), hfind] at hfind2
        exact (Option.some.inj hfind2).symm
  | close pid =>
    by_cases hp : pid = pollId
    · subst hp
      have h2 : (closePoll s pid).2 = s := by
        rw [closePoll_already s pid poll hfind hclosed]
      simp only [applyOp, h2] at hfind2
      rw [hfind] at hfind2
      exact (Option.some.inj hfind2).symm
    · rcases closePoll_snd_cases s pid with h | ⟨p, h⟩
      · simp only [applyOp, h] at hfind2
        rw [hfind] at hfind2
        exact (Option.some.inj hfind2).symm
      · simp only [applyOp, h] at hfind2
        rw [Store.find_set_ne s pid p pollId (Ne.symm hp), hfind] at hfind2
        exact (Option.some.inj hfind2).symm
  | delete pid =>
    by_cases hp : pid = pollId
    · subst hp
      rcases deletePoll_snd_cases s pid with h | h
      · simp only [applyOp, h] at hfind2
        rw [hfind] at hfind2
        exact (Option.some.inj hfind2).symm
      · simp only [applyOp, h] at hfind2
        rw [Store.find_erase_self s pid] at hfind2
        exact Option.noConfusion hfind2
    · rcases deletePoll_snd_cases s pid with h | h
      · simp only [applyOp, h] at hfind2
        rw [hfind] at hfind2
        exact (Option.some.inj hfind2).symm
      · simp only [applyOp, h] at hfind2
        rw [Store.find_erase_ne s pid pollId (Ne.symm hp), hfind] at hfind2
        exact (Option.some.inj hfind2).symm

/-! Arithmetic facts about the rounded percentages of the results
handler. -/

/-- Rounding to one decimal moves a rational by at most one twentieth. -/
theorem abs_roundTenth_sub_le (x : ℚ) : |roundTenth x - x| ≤ 1 / 20 := by
  unfold roundTenth
  have h1 : (⌊x * 10 + 1 / 2⌋ : ℚ) ≤ x * 10 + 1 / 2 := Int.floor_le _
  have h2 : x * 10 + 1 / 2 < (⌊x * 10 + 1 / 2⌋ : ℚ) + 1 := Int.lt_floor_add_one _
  rw [abs_le]
  refine ⟨by linarith, by linarith⟩

/-- Indexing a list over the range of its length and summing recovers
the list sum. -/
theorem sum_getD_range (l : List ℕ) :
    ((List.range l.length).map (fun i => l.getD i 0)).sum = l.sum := by
  induction l with
  | nil => simp
  | cons a t ih =>
    rw [List.length_cons, List.range_succ_eq_map, List.map_cons, List.map_map]
    simp only [List.getD_cons_zero, List.sum_cons]
    have hmap : (List.range t.length).map ((fun i => (a :: t).getD i 0) ∘ Nat.succ)
        = (List.range t.length).map (fun i => t.getD i 0) := by
      apply List.map_congr_left
      intro i _
      simp [Function.comp, List.getD_cons_succ]
    rw [hmap, ih]

/-- Casting a mapped sum of naturals into the rationals. -/
theorem sum_map_natCast (l : List ℕ) (f : ℕ → ℕ) :
    (l.map (fun i => (f i : ℚ))).sum = (((l.map f).sum : ℕ) : ℚ) := by
  induction l with
  | nil => simp
  | cons a t ih => simp [List.sum_cons, ih]

/-- A constant right factor distributes out of a mapped sum. -/
theorem sum_map_mul_const (l : List ℕ) (f : ℕ → ℚ) (r : ℚ) :
    (l.map (fun i => f i * r)).sum = (l.map f).sum * r := by
  induction l with
  | nil => simp
  | cons a t ih => simp [List.sum_cons, ih, add_mul]

/-- Two mapped sums over a range whose entries stay within `c` of each
other stay within `n * c` of each other. -/
theorem abs_sum_range_sub_le (f g : ℕ → ℚ) (c : ℚ) (hc : ∀ i, |f i - g i| ≤ c)
    (n : ℕ) :
    |((List.range n).map f).sum - ((List.range n).map g).sum| ≤ (n : ℚ) * c := by
  induction n with
  | zero => simp
  | succ n ih =>
    rw [List.range_succ, List.map_append, List.map_append, List.sum_append,
      List.sum_append]
    simp only [List.map_cons, List.map_nil, List.sum_cons, List.sum_nil, add_zero]
    have h3 : (((List.range n).map f).sum + f n) - (((List.range n).map g).sum + g n)
        = (((List.range n).map f).sum - ((List.range n).map g).sum) + (f n - g n) := by
      ring
    rw [h3]
    calc |(((List.range n).map f).sum - ((List.range n).map g).sum) + (f n - g n)|
        ≤ |((List.range n).map f).sum - ((List.range n).map g).sum| + |f n - g n| :=
          abs_add _ _
      _ ≤ (n : ℚ) * c + c := add_le_add ih (hc n)
      _ = ((n + 1 : ℕ) : ℚ) * c := by push_cast; ring

/-- The exact (unrounded) percentages of the results handler sum to
one hundred when at least one vote was cast. -/
theorem sum_ratio_eq (votes : List ℕ) (ht : 0 < votes.sum) :
    ((List.range votes.length).map
      (fun i => ((votes.getD i 0 : ℚ) / (votes.sum : ℚ)) * 100)).sum = 100 := by
  have hne : ((votes.sum : ℕ) : ℚ) ≠ 0 := by
    have hpos : (0 : ℚ) < (votes.sum : ℚ) := by exact_mod_cast ht
    linarith
  have hstep : ((List.range votes.length).map
      (fun i => ((votes.getD i 0 : ℚ) / (votes.sum : ℚ)) * 100)).sum
      = ((List.range votes.length).map
          (fun i => (votes.getD i 0 : ℚ) * (100 / (votes.sum : ℚ)))).sum := by
    apply congrArg
    apply List.map_congr_left
    intro i _
    ring
  rw [hstep, sum_map_mul_const, sum_map_natCast, sum_getD_range, mul_comm,
    div_mul_cancel₀ 100 hne]

/-- The rounded percentages of a poll with at least one vote sum to
one hundred up to one twentieth per option. -/
theorem percentage_sum_bound (votes : List ℕ) (ht : 0 < votes.sum) :
    |((List.range votes.length).map
        (fun i => percentageOf (votes.getD i 0) votes.sum)).sum - 100|
      ≤ (votes.length : ℚ) / 20 := by
  have hc : ∀ i, |percentageOf (votes.getD i 0) votes.sum
      - ((votes.getD i 0 : ℚ) / (votes.sum : ℚ)) * 100| ≤ 1 / 20 := by
    intro i
    unfold percentageOf
    rw [if_pos ht]
    exact abs_roundTenth_sub_le _
  have hb := abs_sum_range_sub_le
    (fun i => percentageOf (votes.getD i 0) votes.sum)
    (fun i => ((votes.getD i 0 : ℚ) / (votes.sum : ℚ)) * 100) (1 / 20) hc votes.length
  rw [sum_ratio_eq votes ht] at hb
  calc |((List.range votes.length).map
        (fun i => percentageOf (votes.getD i 0) votes.sum)).sum - 100|
      ≤ (votes.length : ℚ) * (1 / 20) := hb
    _ = (votes.length : ℚ) / 20 := by ring

/-- The resolved deduplication identity is never the empty string when
the connection address is nonempty. -/
theorem uniqueVoterId_ne_empty (vid : Option String) (ip : String) (hip : ip ≠ "") :
    uniqueVoterId vid ip ≠ "" := by
  cases vid with
  | none => exact hip
  | some v =>
    by_cases hv : v = ""
    · simp [uniqueVoterId, hv, hip]
    · simp [uniqueVoterId, hv]

/-- C6: a poll status transitions at most once and only from active to
closed. On an existing active poll the first close succeeds and stores
the closed record, a second close fails with the already-closed error
and leaves the store unchanged, and no operation maps a stored closed
poll back to an active one. -/
theorem status_transition_monotone (s : Store) (pollId : String) (poll : Poll)
    (hfind : Store.find s pollId = some poll)
    (hactive : poll.status = Status.active) :
    (closePoll s pollId).1 = CloseOutcome.closedOk
    ∧ Store.find (closePoll s pollId).2 pollId =
        some { poll with status := Status.closed }
    ∧ closePoll (closePoll s pollId).2 pollId =
        (CloseOutcome.alreadyClosed, (closePoll s pollId).2)
    ∧ (∀ (s2 : Store) (p2 : Poll) (op : Op), freshOk s2 op →
        Store.find s2 pollId = some p2 → p2.status = Status.closed →
        ∀ p3, Store.find (applyOp s2 op) pollId = some p3 →
          p3.status = Status.closed) := by
  have hc : poll.status ≠ Status.closed := by
    rw [hactive]
    intro h
    exact Status.noConfusion h
  have hclose := closePoll_active s pollId poll hfind hc
  refine ⟨by rw [hclose], ?_, ?_, ?_⟩
  · rw [hclose]
    exact Store.find_set_self s pollId _
  · rw [hclose]
    exact closePoll_already _ pollId _ (Store.find_set_self s pollId _) rfl
  · intro s2 p2 op hfresh hfind2 hclosed2 p3 hfind3
    rw [find_applyOp_of_closed s2 op pollId p2 hfresh hfind2 hclosed2 p3 hfind3]
    exact hclosed2

/-- C7: voting on a closed poll fails with the closed-poll error for
every voter identity and option index and leaves the store unchanged,
and no operation changes a stored closed poll record, so its votes and
voters are frozen while the record exists. -/
theorem closed_poll_frozen (s : Store) (pollId : String) (poll : Poll)
    (hfind : Store.find s pollId = some poll)
    (hclosed : poll.status = Status.closed) :
    (∀ (oi : Option ℚ) (vid : Option String) (ip : String),
        votePoll s pollId oi vid ip = (VoteOutcome.closedPoll, s))
    ∧ (∀ op, freshOk s op → ∀ p2,
        Store.find (applyOp s op) pollId = some p2 →
          p2.votes = poll.votes ∧ p2.voters = poll.voters) := by
  refine ⟨?_, ?_⟩
  · intro oi vid ip
    exact votePoll_closed s pollId poll oi vid ip hfind hclosed
  · intro op hfresh p2 hfind2
    rw [find_applyOp_of_closed s op pollId poll hfresh hfind hclosed p2 hfind2]
    exact ⟨rfl, rfl⟩

/-- C9: deleting an existing poll succeeds and removes the record, so
every subsequent get, vote, results, close or delete on that id fails
with the not-found error, and delete on an unknown id fails with the
not-found error. -/
theorem delete_removes_poll (s : Store) (pollId : String) (poll : Poll)
    (hfind : Store.find s pollId = some poll) :
    deletePoll s pollId = (DeleteOutcome.deletedOk, Store.erase s pollId)
    ∧ Store.find (Store.erase s pollId) pollId = none
    ∧ getPoll (Store.erase s pollId) pollId = none
    ∧ (∀ (oi : Option ℚ) (vid : Option String) (ip : String),
        votePoll (Store.erase s pollId) pollId oi vid ip =
          (VoteOutcome.notFound, Store.erase s pollId))
    ∧ getResults (Store.erase s pollId) pollId = none
    ∧ closePoll (Store.erase s pollId) pollId =
        (CloseOutcome.notFound, Store.erase s pollId)
    ∧ deletePoll (Store.erase s pollId) pollId =
        (DeleteOutcome.notFound, Store.erase s pollId)
    ∧ (∀ s2 : Store, Store.find s2 pollId = none →
        deletePoll s2 pollId = (DeleteOutcome.notFound, s2)) := by
  have he := Store.find_erase_self s pollId
  refine ⟨deletePoll_found s pollId poll hfind, he, ?_, ?_, ?_, ?_, ?_, ?_⟩
  · simp [getPoll, he]
  · intro oi vid ip
    exact votePoll_not_found _ pollId oi vid ip he
  · simp [getResults, he]
  · exact closePoll_not_found _ pollId he
  · exact deletePoll_not_found _ pollId he
  · intro s2 h2
    exact deletePoll_not_found s2 pollId h2

/-- C10: the fallback to the connection address happens for every
falsy voter id, the empty string included, so a vote carrying the
empty voter id behaves exactly like a vote carrying none, and the
identity recorded in the voter set is never the empty string when the
connection address is nonempty. -/
theorem voter_fallback_on_falsy (s : Store) (pollId : String) (oi : Option ℚ)
    (voterId : Option String) (ip : String) (poll : Poll)
    (hip : ip ≠ "") (hfind : Store.find s pollId = some poll)
    (hnoempty : "" ∉ poll.voters) :
    uniqueVoterId (some "") ip = ip
    ∧ uniqueVoterId none ip = ip
    ∧ votePoll s pollId oi (some "") ip = votePoll s pollId oi none ip
    ∧ (∀ p2, Store.find (votePoll s pollId oi voterId ip).2 pollId = some p2 →
        "" ∉ p2.voters) := by
  refine ⟨rfl, rfl, rfl, ?_⟩
  intro p2 hp2
  by_cases hc : poll.status = Status.closed
  · have h2 : (votePoll s pollId oi voterId ip).2 = s := by
      rw [votePoll_closed s pollId poll oi voterId ip hfind hc]
    rw [h2, hfind] at hp2
    exact (Option.some.inj hp2) ▸ hnoempty
  · cases oi with
    | none =>
      have h2 : (votePoll s pollId none voterId ip).2 = s := by
        rw [votePoll_invalid_nonnumber s pollId poll voterId ip hfind hc]
      rw [h2, hfind] at hp2
      exact (Option.some.inj hp2) ▸ hnoempty
    | some q =>
      by_cases hq : q < 0 ∨ (poll.options.length : ℚ) ≤ q
      · have h2 : (votePoll s pollId (some q) voterId ip).2 = s := by
          rw [votePoll_invalid_range s pollId poll q voterId ip hfind hc hq]
        rw [h2, hfind] at hp2
        exact (Option.some.inj hp2) ▸ hnoempty
      · by_cases hd : uniqueVoterId voterId ip ∈ poll.voters
        · have h2 : (votePoll s pollId (some q) voterId ip).2 = s := by
            rw [votePoll_duplicate s pollId poll q voterId ip hfind hc hq hd]
          rw [h2, hfind] at hp2
          exact (Option.some.inj hp2) ▸ hnoempty
        · have h2 : (votePoll s pollId (some q) voterId ip).2 =
              Store.set s pollId
                { poll with
                  votes :=
                    if q.den = 1 then
                      poll.votes.set q.num.toNat (poll.votes.getD q.num.toNat 0 + 1)
                    else poll.votes
                  voters := uniqueVoterId voterId ip :: poll.voters } := by
            rw [votePoll_success s pollId poll q voterId ip hfind hc hq hd]
          rw [h2, Store.find_set_self] at hp2
          have hrec := Option.some.inj hp2
          rw [← hrec]
          simp only [List.mem_cons]
          rintro (habs | habs)
          · exact uniqueVoterId_ne_empty voterId ip hip habs.symm
          · exact hnoempty habs

/-- The poll record after an accepted vote at integer index `i` by
identity `v` (lines 203-204): one vote entry incremented, the identity
prepended to the voter set. -/
def votedPoll (poll : Poll) (i : ℕ) (v : String) : Poll :=
  { poll with
    votes := poll.votes.set i (poll.votes.getD i 0 + 1)
    voters := v :: poll.voters }

/-- C3: a vote by a fresh identity at a valid integer index on an
active poll succeeds, increments exactly that vote entry by one,
leaves every other entry unchanged and returns the option text and the
poll id; an immediate second vote by the same identity at any valid
index fails with the duplicate error and leaves the store unchanged. -/
theorem vote_success_and_duplicate (s : Store) (pollId : String) (poll : Poll)
    (voterId : Option String) (ip : String) (i : ℕ)
    (hfind : Store.find s pollId = some poll)
    (hactive : poll.status = Status.active)
    (hlen : poll.votes.length = poll.options.length)
    (hi : i < poll.options.length)
    (hnew : uniqueVoterId voterId ip ∉ poll.voters) :
    votePoll s pollId (some (i : ℚ)) voterId ip =
      (VoteOutcome.voteOk pollId (some (poll.options.getD i "")),
       Store.set s pollId (votedPoll poll i (uniqueVoterId voterId ip)))
    ∧ (votedPoll poll i (uniqueVoterId voterId ip)).votes.getD i 0 =
        poll.votes.getD i 0 + 1
    ∧ (∀ j, j ≠ i →
        (votedPoll poll i (uniqueVoterId voterId ip)).votes.getD j 0 =
          poll.votes.getD j 0)
    ∧ Store.find (Store.set s pollId (votedPoll poll i (uniqueVoterId voterId ip)))
        pollId = some (votedPoll poll i (uniqueVoterId voterId ip))
    ∧ (∀ q2 : ℚ,
        ¬(q2 < 0 ∨
            ((votedPoll poll i (uniqueVoterId voterId ip)).options.length : ℚ) ≤ q2) →
        votePoll (Store.set s pollId (votedPoll poll i (uniqueVoterId voterId ip)))
            pollId (some q2) voterId ip =
          (VoteOutcome.duplicateVote,
           Store.set s pollId (votedPoll poll i (uniqueVoterId voterId ip)))) := by
  have hc : poll.status ≠ Status.closed := by
    rw [hactive]
    intro h
    exact Status.noConfusion h
  have hq : ¬((i : ℚ) < 0 ∨ (poll.options.length : ℚ) ≤ (i : ℚ)) := by
    rw [not_or]
    refine ⟨not_lt.mpr (Nat.cast_nonneg i), not_le.mpr ?_⟩
    exact_mod_cast hi
  have hilen : i < poll.votes.length := by
    rw [hlen]
    exact hi
  have hden : ((i : ℚ)).den = 1 := Rat.den_natCast i
  have hnum : ((i : ℚ)).num.toNat = i := by
    rw [Rat.num_natCast]
    exact Int.toNat_natCast i
  have hopt : poll.options.get? i = some (poll.options.getD i "") := by
    rw [List.get?_eq_getElem?, List.getElem?_eq_getElem hi,
      List.getD_eq_getElem?_getD, List.getElem?_eq_getElem hi]
    rfl
  have hsucc := votePoll_success s pollId poll (i : ℚ) voterId ip hfind hc hq hnew
  rw [if_pos hden, if_pos hden, hnum, hopt] at hsucc
  refine ⟨hsucc, ?_, ?_, Store.find_set_self s pollId _, ?_⟩
  · simp only [votedPoll]
    rw [List.getD_eq_getElem?_getD, List.getElem?_set_self hilen]
    rfl
  · intro j hj
    simp only [votedPoll]
    rw [List.getD_eq_getElem?_getD, List.getElem?_set_ne (Ne.symm hj),
      ← List.getD_eq_getElem?_getD]
  · intro q2 hq2
    exact votePoll_duplicate _ pollId (votedPoll poll i (uniqueVoterId voterId ip))
      q2 voterId ip (Store.find_set_self s pollId _) hc hq2
      (List.mem_cons_self _ _)

/-- C4: create succeeds exactly when the trimmed question is nonempty
and at least two cleaned options remain; on success the stored record
is active with an all-zero vote list matching the stored options in
length and an empty voter set; on failure the store is unchanged. -/
theorem create_validation_and_effect (s : Store) (newId : String) (now : Nat)
    (question : String) (options : List String) :
    ((createPoll s newId now question options).1.isOk = true ↔
      ((jsTrim question).isEmpty = false ∧ 2 ≤ (cleanedOptions options).length))
    ∧ ((createPoll s newId now question options).1.isOk = true →
        Store.find (createPoll s newId now question options).2 newId =
          some (freshPoll newId now question options)
        ∧ (freshPoll newId now question options).status = Status.active
        ∧ (freshPoll newId now question options).votes.length =
            (freshPoll newId now question options).options.length
        ∧ (∀ v ∈ (freshPoll newId now question options).votes, v = 0)
        ∧ (freshPoll newId now question options).voters = [])
    ∧ ((createPoll s newId now question options).1.isOk = false →
        (createPoll s newId now question options).2 = s) := by
  refine ⟨createPoll_isOk_iff s newId now question options, ?_,
    createPoll_fail_frame s newId now question options⟩
  intro hok
  obtain ⟨hq, hlen⟩ := (createPoll_isOk_iff s newId now question options).mp hok
  rw [createPoll_success s newId now question options hq hlen]
  refine ⟨Store.find_set_self s newId _, rfl, ?_, ?_, rfl⟩
  · simp [freshPoll]
  · intro v hv
    simp only [freshPoll, List.mem_map] at hv
    obtain ⟨x, hx, he⟩ := hv
    exact he.symm

/-- Modelled from the spec words of claim C5 only, for comparison with
the implementation: the stored options as the spec describes them,
each input option trimmed and the ones empty after trimming discarded. -/
def specTrimmedOptions (options : List String) : List String :=
  (options.map jsTrim).filter (fun o => !o.isEmpty)

/-- C5 counterexample: on the input with a padded option the store
keeps the original untrimmed string, so the stored options differ from
the spec reading that trims each entry. -/
theorem stored_options_not_trimmed_counterexample :
    (Store.find (createPoll [] "p" 0 "Q?" [" Red ", "Blue"]).2 "p").map Poll.options
      = some [" Red ", "Blue"]
    ∧ specTrimmedOptions [" Red ", "Blue"] = ["Red", "Blue"]
    ∧ (Store.find (createPoll [] "p" 0 "Q?" [" Red ", "Blue"]).2 "p").map Poll.options
        ≠ some (specTrimmedOptions [" Red ", "Blue"]) := by
  refine ⟨by decide, by decide, by decide⟩

/-- C5 amended: on success the stored options are exactly the input
options with the entries that are empty after trimming discarded,
kept verbatim (untrimmed), preserving order and duplicates; every
stored option is nonempty after trimming; and the spec scenario on
Best color stores three options with three zero votes. -/
theorem stored_options_filtered_untrimmed (s : Store) (newId : String) (now : Nat)
    (question : String) (options : List String)
    (hok : (createPoll s newId now question options).1.isOk = true) :
    (Store.find (createPoll s newId now question options).2 newId).map Poll.options
      = some (options.filter trimmedTruthy)
    ∧ (∀ o ∈ options.filter trimmedTruthy, (jsTrim o).isEmpty = false)
    ∧ (options.filter trimmedTruthy).Sublist options
    ∧ (Store.find (createPoll [] "p" 0 "Best color?"
          ["Red", "Blue", "Blue", ""]).2 "p").map Poll.options
        = some ["Red", "Blue", "Blue"]
    ∧ (Store.find (createPoll [] "p" 0 "Best color?"
          ["Red", "Blue", "Blue", ""]).2 "p").map Poll.votes = some [0, 0, 0] := by
  obtain ⟨hq, hlen⟩ := (createPoll_isOk_iff s newId now question options).mp hok
  rw [createPoll_success s newId now question options hq hlen]
  refine ⟨?_, ?_, List.filter_sublist options, by decide, by decide⟩
  · rw [Store.find_set_self]
    rfl
  · intro o ho
    rw [List.mem_filter] at ho
    have h2 := ho.2
    simpa [trimmedTruthy] using h2

/-- C8: for an existing poll the results view reports the vote sum as
total, reports for each option index the rounded ratio of its votes to
the total (zero when no votes were cast), the reported percentages sum
to one hundred within one twentieth per option whenever the total is
positive, and are all zero when the total is zero. -/
theorem results_percentages_correct (s : Store) (pollId : String) (poll : Poll)
    (view : ResultsView) (hfind : Store.find s pollId = some poll)
    (hlen : poll.votes.length = poll.options.length)
    (hview : getResults s pollId = some view) :
    view.totalVotes = poll.votes.sum
    ∧ (∀ i, i < poll.options.length →
        (view.entries.map ResultEntry.percentage).getD i 0 =
          if 0 < poll.votes.sum then
            roundTenth ((poll.votes.getD i 0 : ℚ) / (poll.votes.sum : ℚ) * 100)
          else 0)
    ∧ (0 < poll.votes.sum →
        |(view.entries.map ResultEntry.percentage).sum - 100|
          ≤ (poll.options.length : ℚ) / 20)
    ∧ (poll.votes.sum = 0 → ∀ e ∈ view.entries, e.percentage = 0) := by
  have hv : view =
      { pollId := pollId
        question := poll.question
        status := poll.status
        totalVotes := poll.votes.sum
        entries := (List.range poll.options.length).map (fun i =>
          { option := poll.options.getD i ""
            votes := poll.votes.getD i 0
            percentage := percentageOf (poll.votes.getD i 0) poll.votes.sum })
        createdAt := poll.createdAt } := by
    have h2 := hview
    simp only [getResults, hfind] at h2
    exact (Option.some.inj h2).symm
  subst hv
  refine ⟨rfl, ?_, ?_, ?_⟩
  · intro i hi
    simp only [List.map_map]
    rw [List.getD_eq_getElem?_getD, List.getElem?_map, List.getElem?_range hi]
    rfl
  · intro ht
    simp only [List.map_map]
    have hcomp : (ResultEntry.percentage ∘ fun i =>
        ({ option := poll.options.getD i ""
           votes := poll.votes.getD i 0
           percentage := percentageOf (poll.votes.getD i 0) poll.votes.sum } :
          ResultEntry))
        = fun i => percentageOf (poll.votes.getD i 0) poll.votes.sum := rfl
    rw [hcomp, ← hlen]
    exact percentage_sum_bound poll.votes ht
  · intro ht e he
    rw [List.mem_map] at he
    obtain ⟨i, hi, he⟩ := he
    rw [← he]
    simp [percentageOf, ht]

/-- The JSON number one half, built without normalization so the
kernel can evaluate the vote handler on it. -/
def halfIndex : ℚ := ⟨1, 2, by decide, by decide⟩

/-- A store holding one active two-option poll, produced by the create
handler from the empty store. -/
def demoStore : Store := (createPoll [] "p1" 0 "Q?" ["A", "B"]).2

/-- The store after the fractional-index vote the handler accepts on
the demo poll. -/
def bugStore : Store :=
  (votePoll demoStore "p1" (some halfIndex) (some "v") "ip").2

/-- C2 (code defect): the option-index test of line 186 admits the
non-integer in-range number one half on an active two-option poll with
a fresh voter; the vote is accepted instead of failing with the
validation error, and the returned option text is the JS undefined. -/
theorem vote_fractional_index_accepted :
    halfIndex.den ≠ 1
    ∧ (0 : ℚ) ≤ halfIndex
    ∧ halfIndex < ((2 : ℕ) : ℚ)
    ∧ (votePoll demoStore "p1" (some halfIndex) (some "v") "ip").1
        = VoteOutcome.voteOk "p1" none := by
  refine ⟨by decide, by decide, by decide, by decide⟩

/-- C1 (code defect): after a create and one accepted fractional-index
vote, the reachable store holds a poll whose vote entries sum to zero
while its voter set has one identity, so the vote sum does not equal
the number of recorded voters. -/
theorem vote_sum_invariant_violated :
    Reachable bugStore
    ∧ (Store.find bugStore "p1").map (fun p => (p.votes.sum, p.voters.length))
        = some (0, 1) := by
  constructor
  · have h1 : Reachable demoStore :=
      Reachable.step [] (Op.create "p1" 0 "Q?" ["A", "B"]) Reachable.init rfl
    exact Reachable.step demoStore
      (Op.vote "p1" (some halfIndex) (some "v") "ip") h1 trivial
  · decide

/-- A concrete active two-option poll used to instantiate theorems. -/
def wPollActive : Poll :=
  { id := "pa"
    question := "Q?"
    options := ["A", "B"]
    votes := [0, 0]
    status := Status.active
    createdAt := 0
    voters := [] }

/-- A concrete closed two-option poll with three recorded votes used
to instantiate theorems. -/
def wPollClosed : Poll :=
  { id := "pc"
    question := "Q?"
    options := ["A", "B"]
    votes := [2, 1]
    status := Status.closed
    createdAt := 0
    voters := ["x", "y", "z"] }

/-- The results view the handler computes for the closed demo poll. -/
def wView : ResultsView :=
  { pollId := "pc"
    question := "Q?"
    status := Status.closed
    totalVotes := 3
    entries := [{ option := "A", votes := 2, percentage := percentageOf 2 3 },
                { option := "B", votes := 1, percentage := percentageOf 1 3 }]
    createdAt := 0 }

/-- Witness for C3 at a concrete store: the fresh vote at index one is
accepted and returns the second option text. -/
theorem vote_success_and_duplicate_witness :
    1 < wPollActive.options.length
    ∧ (votePoll [("pa", wPollActive)] "pa" (some ((1 : ℕ) : ℚ)) (some "v") "ip").1
        = VoteOutcome.voteOk "pa" (some "B") :=
  ⟨by decide, by
    have h := vote_success_and_duplicate [("pa", wPollActive)] "pa" wPollActive
      (some "v") "ip" 1 (by decide) (by decide) (by decide) (by decide) (by decide)
    rw [h.1]
    decide⟩

/-- Witness for C4 at a concrete input: the create with a padded
question and one blank option succeeds and stores the fresh record. -/
theorem create_validation_and_effect_witness :
    (createPoll [] "w4" 5 " Best? " ["A", " ", "B"]).1.isOk = true
    ∧ Store.find (createPoll [] "w4" 5 " Best? " ["A", " ", "B"]).2 "w4"
        = some (freshPoll "w4" 5 " Best? " ["A", " ", "B"]) :=
  ⟨by decide,
   ((create_validation_and_effect [] "w4" 5 " Best? " ["A", " ", "B"]).2.1
     (by decide)).1⟩

/-- Witness for the amended C5 at a concrete input: the padded first
option is stored verbatim and the blank option is dropped. -/
theorem stored_options_filtered_untrimmed_witness :
    (createPoll [] "w5" 0 "Q?" [" Red ", "Blue", ""]).1.isOk = true
    ∧ (Store.find (createPoll [] "w5" 0 "Q?" [" Red ", "Blue", ""]).2 "w5").map
        Poll.options = some [" Red ", "Blue"] :=
  ⟨by decide, by
    have h := stored_options_filtered_untrimmed [] "w5" 0 "Q?" [" Red ", "Blue", ""]
      (by decide)
    rw [h.1]
    decide⟩

/-- Witness for C6 at a concrete store: the first close of the active
demo poll succeeds. -/
theorem status_transition_monotone_witness :
    Store.find [("pa", wPollActive)] "pa" = some wPollActive
    ∧ wPollActive.status = Status.active
    ∧ (closePoll [("pa", wPollActive)] "pa").1 = CloseOutcome.closedOk :=
  ⟨by decide, by decide,
   (status_transition_monotone [("pa", wPollActive)] "pa" wPollActive
     (by decide) (by decide)).1⟩

/-- Witness for C7 at a concrete store: a vote on the closed demo poll
fails with the closed-poll error and leaves the store unchanged. -/
theorem closed_poll_frozen_witness :
    wPollClosed.status = Status.closed
    ∧ votePoll [("pc", wPollClosed)] "pc" (some ((0 : ℕ) : ℚ)) (some "n") "ip"
        = (VoteOutcome.closedPoll, [("pc", wPollClosed)]) :=
  ⟨by decide,
   (closed_poll_frozen [("pc", wPollClosed)] "pc" wPollClosed
     (by decide) (by decide)).1 (some ((0 : ℕ) : ℚ)) (some "n") "ip"⟩

/-- Witness for C8 at a concrete store: the closed demo poll has three
votes and its two reported percentages sum to one hundred within one
tenth. -/
theorem results_percentages_correct_witness :
    getResults [("pc", wPollClosed)] "pc" = some wView
    ∧ (0 < wPollClosed.votes.sum →
        |(wView.entries.map ResultEntry.percentage).sum - 100|
          ≤ (wPollClosed.options.length : ℚ) / 20) :=
  ⟨rfl,
   (results_percentages_correct [("pc", wPollClosed)] "pc" wPollClosed wView
     (by decide) (by decide) rfl).2.2.1⟩

/-- Witness for C9 at a concrete store: deleting the demo poll
succeeds and erases the record. -/
theorem delete_removes_poll_witness :
    Store.find [("pa", wPollActive)] "pa" = some wPollActive
    ∧ deletePoll [("pa", wPollActive)] "pa"
        = (DeleteOutcome.deletedOk, Store.erase [("pa", wPollActive)] "pa") :=
  ⟨by decide,
   (delete_removes_poll [("pa", wPollActive)] "pa" wPollActive (by decide)).1⟩

/-- Witness for C10 at a concrete store: the empty voter id falls back
to the connection address and the vote behaves exactly like a vote
with no voter id. -/
theorem voter_fallback_on_falsy_witness :
    ("ip" : String) ≠ ""
    ∧ "" ∉ wPollActive.voters
    ∧ uniqueVoterId (some "") "ip" = "ip"
    ∧ votePoll [("pa", wPollActive)] "pa" (some ((0 : ℕ) : ℚ)) (some "") "ip"
        = votePoll [("pa", wPollActive)] "pa" (some ((0 : ℕ) : ℚ)) none "ip" := by
  have h := voter_fallback_on_falsy [("pa", wPollActive)] "pa" (some ((0 : ℕ) : ℚ))
    (some "") "ip" wPollActive (by decide) (by decide) (by decide)
  exact ⟨by decide, by decide, h.1, h.2.2.1⟩
